import Mathlib

/-!
Verification development for `alerta_v2.py`, an RSS alert pipeline.

Shallow-embedding conventions used throughout this file:

* Python `str` is Lean `String`; `str.lower()` is modelled per character with
  `Char.toLower` (faithful for ASCII, which covers every vocabulary entry of
  the program).
* Python `bytes` values are `List ℕ`, one byte value per element.
* The fixed coordinate literals of the program are Python floats that are
  only ever stored and compared, never computed with; they are modelled as
  exact `ℚ` values carrying the same decimal literals.
* Network effects are explicit parameters: `geocode_place`'s HTTP lookup is a
  parameter `geocode : String → Option (ℚ × ℚ)` where `none` models a network
  error, a timeout or an empty result list; the per-source fetch of
  `poll_once` is a parameter `feeds : List (List RawEntry)` giving, in
  configuration order, the entries parsed from each source (a source whose
  fetch or parse fails contributes `[]`).
* `datetime.now(timezone.utc).isoformat()` is modelled by a parameter
  `now : ℕ → String` applied to the number of records emitted so far in the
  run (successive clock reads).
* Files are explicit values: the dedup file `.seen_unified_hashes` is
  `Option (List String)` (its list of lines, `none` when the file does not
  exist), `alerts.csv` is `Option (List AlertRecord)` (its rows), and
  `alerts.geojson` is `Option (List Feature)` (its feature list).
-/

/-! ### String primitives (Python semantics) -/

/-- Python `str.lower()`, applied per character (ASCII-faithful). -/
def lowerStr (s : String) : String := String.mk (s.data.map Char.toLower)

/-- `prefixB n l` is true when the list `n` is a prefix of `l`. -/
def prefixB : List Char → List Char → Bool
  | [], _ => true
  | _ :: _, [] => false
  | a :: as, b :: bs => a == b && prefixB as bs

/-- `infixB n l` is true when `n` occurs contiguously inside `l`. -/
def infixB (n : List Char) : List Char → Bool
  | [] => prefixB n []
  | c :: cs => prefixB n (c :: cs) || infixB n cs

/-- Python `needle in hay` on strings: contiguous substring test. -/
def substrB (needle hay : String) : Bool := infixB needle.data hay.data

/-- The specification's notion of a case-insensitive substring occurrence:
`k` occurs in `t` up to case. -/
def ciSubstr (k t : String) : Bool := substrB (lowerStr k) (lowerStr t)

/-- Python `str.strip()` with no argument: remove leading and trailing
whitespace. -/
def pyStrip (s : String) : String :=
  String.mk (((s.data.dropWhile Char.isWhitespace).reverse.dropWhile
    Char.isWhitespace).reverse)

/-- The punctuation characters stripped by `w.strip(".,()\"'")` in
`extract_coords_from_text`. -/
def punctChars : List Char := ".,()\"'".data

/-- Python `w.strip(".,()\"'")`: remove those characters from both ends. -/
def stripPunct (s : String) : String :=
  String.mk (((s.data.dropWhile (fun c => punctChars.contains c)).reverse.dropWhile
    (fun c => punctChars.contains c)).reverse)

/-- One step of Python `str.split()`: accumulate the current word and the
words already formed, scanning from the right. -/
def pySplitStep (c : Char) (acc : List Char × List String) :
    List Char × List String :=
  if c.isWhitespace then
    ([], if acc.1 == [] then acc.2 else String.mk acc.1 :: acc.2)
  else (c :: acc.1, acc.2)

/-- Python `text.split()` with no argument: split on runs of whitespace,
producing no empty words. -/
def pySplit (s : String) : List String :=
  let r := s.data.foldr pySplitStep ([], [])
  if r.1 == [] then r.2 else String.mk r.1 :: r.2

/-- Helper for Python `str.istitle()`: `prevCased` records whether the
previous character was cased, `seenCased` whether any cased character has
appeared. Uppercase may only follow an uncased character, lowercase only a
cased one. -/
def istitleAux : List Char → Bool → Bool → Bool
  | [], _, seenCased => seenCased
  | c :: cs, prevCased, seenCased =>
    if c.isUpper then (if prevCased then false else istitleAux cs true true)
    else if c.isLower then (if prevCased then istitleAux cs true true else false)
    else istitleAux cs false seenCased

/-- Python `w.istitle()` (ASCII-faithful). -/
def pyIstitle (s : String) : Bool := istitleAux s.data false false

/-! ### Configuration constants of the program -/

/-- `KEYWORDS` from the source: the relevance vocabulary, lowercased by the
`[k.lower() for k in KEYWORDS]` reassignment. -/
def KEYWORDS : List String :=
  ([ "conflict", "war", "attack", "strike", "explosion", "border",
     "tension", "military", "missile", "drone", "nuclear",
     "venezuela", "colombia", "usa", "russia", "ukraine", "middle east",
     "migration", "refugees", "displaced", "guerrilla", "eln", "farc",
     "narcotrafico", "tren de aragua", "gaitanistas", "epl",
     "terroristas", "cartel de los soles", "lanza del sur", "south spears"
   ]).map lowerStr

/-- `SEVERITY_KEYWORDS` from the source. -/
def SEVERITY_KEYWORDS : List String :=
  [ "attack", "explosion", "killed", "strike", "war",
    "invasion", "massacre", "terrorist" ]

/-- `GEO_LOCATIONS` from the source: a Python dict whose iteration order is
its definition order, modelled as an association list. Each value is the
`[longitude, latitude]` pair of the source. -/
def GEO_LOCATIONS : List (String × (ℚ × ℚ)) :=
  [ ("venezuela", (-66.5897, 6.4238)),
    ("colombia", (-74.2973, 4.5709)),
    ("usa", (-98.5795, 39.8283)),
    ("russia", (105.3188, 61.5240)),
    ("ukraine", (31.1656, 48.3794)),
    ("china", (104.1954, 35.8617)),
    ("iran", (53.6880, 32.4279)),
    ("israel", (34.8516, 31.0461)),
    ("gaza", (34.3088, 31.3547)),
    ("mexico", (-102.5528, 23.6345)),
    ("ecuador", (-78.1834, -1.8312)),
    ("peru", (-75.0152, -9.19)),
    ("brazil", (-51.9253, -14.2350)) ]

/-- The `blacklist` set inside `extract_coords_from_text`. -/
def GEO_BLACKLIST : List String := ["Breaking", "Updated", "News", "World"]

/-! ### Keyword relevance and severity -/

/-- `matches_keywords(text, keywords)` from the source:
`t = text.lower(); return any(k in t for k in keywords)`. -/
def matches_keywords (text : String) (keywords : List String) : Bool :=
  let t := lowerStr text
  keywords.any (fun k => substrB k t)

/-- `severity_from_text(text)` from the source:
`t = text.lower(); score = sum(2 for k in SEVERITY_KEYWORDS if k in t);
return min(score, 10)`. The generator-sum of `2` per matching keyword is
`2 *` the number of matching keywords. -/
def severity_from_text (text : String) : ℕ :=
  let t := lowerStr text
  min (2 * (SEVERITY_KEYWORDS.filter (fun k => substrB k t)).length) 10

/-! ### Geographic resolution -/

/-- The candidate-token loop at the end of `extract_coords_from_text`:
skip blacklisted words, return the first successful geocode result, and fall
back to the sentinel `[0.0, 0.0]`. `geocode` stands for `geocode_place`,
whose `try/except` body returns `None` on any network error, timeout, or
empty result. -/
def geoLoop (geocode : String → Option (ℚ × ℚ)) : List String → ℚ × ℚ
  | [] => (0, 0)
  | w :: ws =>
    if GEO_BLACKLIST.contains w then geoLoop geocode ws
    else
      match geocode w with
      | some c => c
      | none => geoLoop geocode ws

/-- `extract_coords_from_text(text)` from the source: first key of
`GEO_LOCATIONS` (in definition order) occurring in the lowercased text wins;
otherwise capitalized tokens (`w.istitle()`), stripped of surrounding
punctuation, are geocoded in order. -/
def extract_coords_from_text (geocode : String → Option (ℚ × ℚ))
    (text : String) : ℚ × ℚ :=
  let t := lowerStr text
  match GEO_LOCATIONS.find? (fun p => substrB p.1 t) with
  | some p => p.2
  | none =>
    let words := ((pySplit text).filter pyIstitle).map stripPunct
    geoLoop geocode words

/-! ### SHA-256 and `hash_item`

`hash_item(title, link)` is `hashlib.sha256((title + link).encode("utf-8")).hexdigest()`.
SHA-256 is embedded executably over `List ℕ` byte lists; 32-bit machine words
are `ℕ` with explicit `% 2 ^ 32` where overflow matters. -/

/-- UTF-8 encoding of one character (`str.encode("utf-8")`, per scalar). -/
def utf8Char (c : Char) : List ℕ :=
  let n := c.toNat
  if n < 0x80 then [n]
  else if n < 0x800 then
    [0xC0 ||| (n >>> 6), 0x80 ||| (n &&& 0x3F)]
  else if n < 0x10000 then
    [0xE0 ||| (n >>> 12), 0x80 ||| ((n >>> 6) &&& 0x3F), 0x80 ||| (n &&& 0x3F)]
  else
    [0xF0 ||| (n >>> 18), 0x80 ||| ((n >>> 12) &&& 0x3F),
     0x80 ||| ((n >>> 6) &&& 0x3F), 0x80 ||| (n &&& 0x3F)]

/-- `s.encode("utf-8")` as a byte list. -/
def utf8Bytes (s : String) : List ℕ := s.data.flatMap utf8Char

/-- Right rotation of a 32-bit word. -/
def rotr32 (n w : ℕ) : ℕ := (w >>> n) ||| ((w <<< (32 - n)) % 2 ^ 32)

/-- SHA-256 `Ch(e, f, g)`. -/
def shaCh (e f g : ℕ) : ℕ := (e &&& f) ^^^ ((e ^^^ 0xffffffff) &&& g)

/-- SHA-256 `Maj(a, b, c)`. -/
def shaMaj (a b c : ℕ) : ℕ := (a &&& b) ^^^ (a &&& c) ^^^ (b &&& c)

/-- SHA-256 `Σ₀`. -/
def bigSigma0 (x : ℕ) : ℕ := rotr32 2 x ^^^ rotr32 13 x ^^^ rotr32 22 x

/-- SHA-256 `Σ₁`. -/
def bigSigma1 (x : ℕ) : ℕ := rotr32 6 x ^^^ rotr32 11 x ^^^ rotr32 25 x

/-- SHA-256 `σ₀`. -/
def smallSigma0 (x : ℕ) : ℕ := rotr32 7 x ^^^ rotr32 18 x ^^^ (x >>> 3)

/-- SHA-256 `σ₁`. -/
def smallSigma1 (x : ℕ) : ℕ := rotr32 17 x ^^^ rotr32 19 x ^^^ (x >>> 10)

/-- The round-constant table of SHA-256 (FIPS 180-4), written in decimal. -/
def K256 : List ℕ :=
  [ 1116352408, 1899447441, 3049323471, 3921009573,
    961987163, 1508970993, 2453635748, 2870763221,
    3624381080, 310598401, 607225278, 1426881987,
    1925078388, 2162078206, 2614888103, 3248222580,
    3835390401, 4022224774, 264347078, 604807628,
    770255983, 1249150122, 1555081692, 1996064986,
    2554220882, 2821834349, 2952996808, 3210313671,
    3336571891, 3584528711, 113926993, 338241895,
    666307205, 773529912, 1294757372, 1396182291,
    1695183700, 1986661051, 2177026350, 2456956037,
    2730485921, 2820302411, 3259730800, 3345764771,
    3516065817, 3600352804, 4094571909, 275423344,
    430227734, 506948616, 659060556, 883997877,
    958139571, 1322822218, 1537002063, 1747873779,
    1955562222, 2024104815, 2227730452, 2361852424,
    2428436474, 2756734187, 3204031479, 3329325298 ]

/-- The SHA-256 hash state: eight 32-bit words. -/
structure Hash8 where
  a : ℕ
  b : ℕ
  c : ℕ
  d : ℕ
  e : ℕ
  f : ℕ
  g : ℕ
  h : ℕ

/-- The initial hash value of SHA-256 (FIPS 180-4), written in decimal. -/
def initH : Hash8 :=
  ⟨1779033703, 3144134277, 1013904242, 2773480762,
   1359893119, 2600822924, 528734635, 1541459225⟩

/-- SHA-256 message padding: append `0x80`, zero bytes to reach 56 mod 64,
then the bit length as 8 big-endian bytes. -/
def shaPad (msg : List ℕ) : List ℕ :=
  let L := msg.length
  let zeros := (120 - (L + 1) % 64) % 64
  msg ++ [0x80] ++ List.replicate zeros 0 ++
    (List.range 8).map (fun i => ((8 * L) >>> (8 * (7 - i))) % 256)

/-- Split a padded message into 512-bit blocks of 16 big-endian 32-bit
words. -/
def shaBlocks (p : List ℕ) : List (List ℕ) :=
  (List.range (p.length / 64)).map (fun i =>
    (List.range 16).map (fun j =>
      ((p.getD (64 * i + 4 * j) 0) <<< 24) |||
      ((p.getD (64 * i + 4 * j + 1) 0) <<< 16) |||
      ((p.getD (64 * i + 4 * j + 2) 0) <<< 8) |||
      (p.getD (64 * i + 4 * j + 3) 0)))

/-- Extend the 16 words of a block to the 64-word message schedule. -/
def shaSchedule (block : List ℕ) : List ℕ :=
  (List.range 48).foldl (fun w _ =>
    w ++ [(smallSigma1 (w.getD (w.length - 2) 0) + w.getD (w.length - 7) 0 +
           smallSigma0 (w.getD (w.length - 15) 0) + w.getD (w.length - 16) 0)
          % 2 ^ 32]) block

/-- One SHA-256 compression round for constant/schedule pair `kw`. -/
def shaRound (st : Hash8) (kw : ℕ × ℕ) : Hash8 :=
  let t1 := (st.h + bigSigma1 st.e + shaCh st.e st.f st.g + kw.1 + kw.2) % 2 ^ 32
  let t2 := (bigSigma0 st.a + shaMaj st.a st.b st.c) % 2 ^ 32
  ⟨(t1 + t2) % 2 ^ 32, st.a, st.b, st.c, (st.d + t1) % 2 ^ 32, st.e, st.f, st.g⟩

/-- SHA-256 compression of one block into the running hash value. -/
def shaCompress (H : Hash8) (block : List ℕ) : Hash8 :=
  let w := shaSchedule block
  let st := (K256.zip w).foldl shaRound H
  ⟨(H.a + st.a) % 2 ^ 32, (H.b + st.b) % 2 ^ 32, (H.c + st.c) % 2 ^ 32,
   (H.d + st.d) % 2 ^ 32, (H.e + st.e) % 2 ^ 32, (H.f + st.f) % 2 ^ 32,
   (H.g + st.g) % 2 ^ 32, (H.h + st.h) % 2 ^ 32⟩

/-- SHA-256 of a byte list: the eight final hash words. -/
def sha256 (msg : List ℕ) : Hash8 :=
  (shaBlocks (shaPad msg)).foldl shaCompress initH

/-- Lowercase hexadecimal digit. -/
def hexDigit (n : ℕ) : Char := "0123456789abcdef".data.getD n '0'

/-- The eight hex characters of one 32-bit word, most significant first. -/
def wordHex (w : ℕ) : List Char :=
  (List.range 8).map (fun i => hexDigit ((w >>> (4 * (7 - i))) % 16))

/-- `hashlib.sha256(m).hexdigest()`: the 64-character lowercase hex digest. -/
def sha256hex (m : List ℕ) : String :=
  let H := sha256 m
  String.mk (wordHex H.a ++ wordHex H.b ++ wordHex H.c ++ wordHex H.d ++
             wordHex H.e ++ wordHex H.f ++ wordHex H.g ++ wordHex H.h)

/-- `hash_item(title, link)` from the source:
`hashlib.sha256((title + link).encode("utf-8")).hexdigest()`. -/
def hash_item (title link : String) : String :=
  sha256hex (utf8Bytes (title ++ link))

/-! ### Records and the pipeline -/

/-- One parsed feed entry: `entry.get("title", "")`,
`entry.get("summary", entry.get("description", ""))`, `entry.get("link", "")`.
The `.get` defaults make all three fields total strings. -/
structure RawEntry where
  title : String
  summary : String
  link : String
deriving DecidableEq

/-- One alert dict as appended to `new_alerts` in `poll_once`. -/
structure AlertRecord where
  id_hash : String
  title : String
  summary : String
  link : String
  severity : ℕ
  longitude : ℚ
  latitude : ℚ
  scraped_at : String
deriving DecidableEq

/-- The `content = f"{title}\n{summary}"` string built for an entry. -/
def entryContent (e : RawEntry) : String := e.title ++ "\n" ++ e.summary

/-- The fingerprint `hash_item(title, link)` of an entry. -/
def entryHash (e : RawEntry) : String := hash_item e.title e.link

/-- `load_seen_hashes()` from the source: `none` (file absent) loads the
empty set, otherwise each line is stripped and collected into a set. The
`except` branch that also returns an empty set is absorbed into the `none`
case. -/
def load_seen_hashes : Option (List String) → Finset String
  | none => ∅
  | some lines => (lines.map pyStrip).toFinset

/-- `save_seen_hashes(hashes)` from the source: the file is rewritten with
one line per element of the set (each written as `h + "\n"`); Python set
iteration order is unspecified, so the lines are modelled as the set's
elements in a definite (sorted) order. -/
def save_seen_hashes (hashes : Finset String) : List String :=
  hashes.sort (· ≤ ·)

/-- The body of the inner `for entry in ...` loop of `poll_once`, acting on
the accumulator `(new_alerts, seen)`: filter by `matches_keywords`, skip if
the fingerprint is already in `seen`, otherwise mutate `seen`, resolve
coordinates, score severity, timestamp, and append the new alert. -/
def stepEntry (geocode : String → Option (ℚ × ℚ)) (now : ℕ → String)
    (acc : List AlertRecord × Finset String) (e : RawEntry) :
    List AlertRecord × Finset String :=
  if matches_keywords (entryContent e) KEYWORDS then
    let h := entryHash e
    if h ∈ acc.2 then acc
    else
      let coords := extract_coords_from_text geocode (entryContent e)
      (acc.1 ++
        [{ id_hash := h, title := e.title, summary := e.summary,
           link := e.link, severity := severity_from_text (entryContent e),
           longitude := coords.1, latitude := coords.2,
           scraped_at := now acc.1.length }],
       insert h acc.2)
  else acc

/-- `poll_once()` from the source: load the seen set from the dedup file,
iterate the configured sources in order and their entries in parse order
(a source whose fetch fails is the same as a source with no entries, per the
`try/except: continue`), then save the seen set and return the new alerts.
The result is `(new_alerts, lines of the rewritten dedup file)`. -/
def poll_once (geocode : String → Option (ℚ × ℚ)) (now : ℕ → String)
    (dupFile : Option (List String)) (feeds : List (List RawEntry)) :
    List AlertRecord × List String :=
  let seen := load_seen_hashes dupFile
  let r := feeds.foldl (fun acc fe => fe.foldl (stepEntry geocode now) acc)
    ([], seen)
  (r.1, save_seen_hashes r.2)

/-! ### Persistence of the two output files -/

/-- The `properties` dict of a GeoJSON feature: every alert field except
`longitude`/`latitude`. -/
structure FeatureProps where
  id_hash : String
  title : String
  summary : String
  link : String
  severity : ℕ
  scraped_at : String
deriving DecidableEq

/-- One GeoJSON `Feature` with a `Point` geometry `[longitude, latitude]`. -/
structure Feature where
  coordinates : ℚ × ℚ
  properties : FeatureProps
deriving DecidableEq

/-- The feature built from one alert in `append_to_geojson`. -/
def toFeature (a : AlertRecord) : Feature :=
  ⟨(a.longitude, a.latitude),
   ⟨a.id_hash, a.title, a.summary, a.link, a.severity, a.scraped_at⟩⟩

/-- `append_to_csv(alerts)` from the source as a function on the CSV file
contents: early return when `alerts` is empty (file untouched); otherwise the
existing rows, when the file exists and parses, are kept in front of the new
batch and the whole table is rewritten. -/
def append_to_csv (alerts : List AlertRecord)
    (csv : Option (List AlertRecord)) : Option (List AlertRecord) :=
  if alerts.isEmpty then csv
  else
    match csv with
    | some old => some (old ++ alerts)
    | none => some alerts

/-- `append_to_geojson(alerts)` from the source: the feature collection is
built from the current batch alone and overwrites the file. -/
def append_to_geojson (alerts : List AlertRecord) : List Feature :=
  alerts.map toFeature

/-- The durable output files. -/
structure FileState where
  csv : Option (List AlertRecord)
  geojson : Option (List Feature)
deriving DecidableEq

/-- The file effects of `AppUI.run_alert_process` given the batch returned
by `poll_once`: both writers run only under `if alerts:`; with an empty
batch neither file is touched. -/
def run_alert_process (alerts : List AlertRecord) (fs : FileState) :
    FileState :=
  if alerts.isEmpty then fs
  else ⟨append_to_csv alerts fs.csv, some (append_to_geojson alerts)⟩

/-! ### Concrete inputs used to instantiate the theorems -/

/-- A geocoding oracle for which every lookup fails (service unreachable,
timeout, or empty result on every query). -/
def gNone : String → Option (ℚ × ℚ) := fun _ => none

/-- A constant clock. -/
def now0 : ℕ → String := fun _ => "1970-01-01T00:00:00+00:00"

/-- An entry whose content matches the relevance vocabulary (via "war"). -/
def eWar : RawEntry := ⟨"war", "", "l"⟩

/-- An entry whose content matches no relevance keyword. -/
def eHello : RawEntry := ⟨"hello", "", "x"⟩

/-- A sample alert row from a previous run. -/
def demoRecord : AlertRecord := ⟨"h", "t", "s", "l", 0, 0, 0, "ts"⟩

/-- Output files as left by a previous run that emitted `demoRecord`. -/
def demoFS : FileState :=
  ⟨some [demoRecord], some [toFeature demoRecord]⟩

/-- The number of distinct severity keywords occurring case-insensitively
in `text` (the specification's counting notion). -/
def distinctSevCount (text : String) : ℕ :=
  ((SEVERITY_KEYWORDS.filter (fun k => ciSubstr k text)).dedup).length

/-! ### Helper lemmas -/

lemma dropWhile_eq_self_of {α : Type} (p : α → Bool) (l : List α)
    (h : ∀ c ∈ l, p c = false) : l.dropWhile p = l := by
  induction l with
  | nil => rfl
  | cons c cs ih =>
    rw [List.dropWhile_cons, h c (List.mem_cons_self c cs)]
    simp

lemma pyStrip_eq_self {s : String}
    (h : ∀ c ∈ s.data, c.isWhitespace = false) : pyStrip s = s := by
  unfold pyStrip
  rw [dropWhile_eq_self_of _ _ h,
    dropWhile_eq_self_of _ _ (fun c hc => h c (List.mem_reverse.mp hc)),
    List.reverse_reverse]

lemma hexDigit_not_whitespace (n : ℕ) : (hexDigit n).isWhitespace = false := by
  by_cases h : n < 16
  · interval_cases n <;> rfl
  · unfold hexDigit
    rw [List.getD_eq_default]
    · rfl
    · exact le_trans (le_of_eq (rfl : ("0123456789abcdef".data).length = 16))
        (Nat.le_of_not_lt h)

lemma hash_item_chars_not_whitespace (t l : String) :
    ∀ c ∈ (hash_item t l).data, c.isWhitespace = false := by
  intro c hc
  simp only [hash_item, sha256hex] at hc
  simp only [wordHex, List.mem_append, List.mem_map] at hc
  rcases hc with ((((((⟨i, _, hi⟩ | ⟨i, _, hi⟩) | ⟨i, _, hi⟩) | ⟨i, _, hi⟩) |
    ⟨i, _, hi⟩) | ⟨i, _, hi⟩) | ⟨i, _, hi⟩) | ⟨i, _, hi⟩ <;>
    rw [← hi] <;> exact hexDigit_not_whitespace _

lemma pyStrip_hash_item (t l : String) :
    pyStrip (hash_item t l) = hash_item t l :=
  pyStrip_eq_self (hash_item_chars_not_whitespace t l)

lemma substrB_empty_hay {k : String} (h : substrB k "" = true) : k = "" := by
  apply String.ext
  unfold substrB infixB at h
  revert h
  cases hk : k.data with
  | nil => intro _; rfl
  | cons a as => intro h; exact absurd h (by simp [prefixB])

lemma wordHex_length (w : ℕ) : (wordHex w).length = 8 := by
  simp [wordHex]

/-- Case analysis of one `stepEntry`: either the entry is skipped (and then
a matching entry already has its fingerprint in the seen set), or a new
record carrying the entry's fields and fingerprint is appended and the
fingerprint inserted. -/
lemma stepEntry_cases (geocode : String → Option (ℚ × ℚ)) (now : ℕ → String)
    (acc : List AlertRecord × Finset String) (e : RawEntry) :
    (stepEntry geocode now acc e = acc ∧
      (matches_keywords (entryContent e) KEYWORDS = true →
        entryHash e ∈ acc.2)) ∨
    (matches_keywords (entryContent e) KEYWORDS = true ∧
      entryHash e ∉ acc.2 ∧
      ∃ r : AlertRecord, r.id_hash = entryHash e ∧ r.title = e.title ∧
        r.summary = e.summary ∧ r.link = e.link ∧
        stepEntry geocode now acc e =
          (acc.1 ++ [r], insert (entryHash e) acc.2)) := by
  by_cases h1 : matches_keywords (entryContent e) KEYWORDS = true
  · by_cases h2 : entryHash e ∈ acc.2
    · left
      constructor
      · simp [stepEntry, h1, h2]
      · intro _; exact h2
    · right
      refine ⟨h1, h2,
        ⟨entryHash e, e.title, e.summary, e.link,
         severity_from_text (entryContent e),
         (extract_coords_from_text geocode (entryContent e)).1,
         (extract_coords_from_text geocode (entryContent e)).2,
         now acc.1.length⟩, rfl, rfl, rfl, rfl, ?_⟩
      simp [stepEntry, h1, h2]
  · left
    constructor
    · simp [stepEntry, h1]
    · intro h; exact absurd h h1

/-- The seen set only grows across one entry. -/
lemma stepEntry_seen_mono (geocode : String → Option (ℚ × ℚ))
    (now : ℕ → String) (acc : List AlertRecord × Finset String)
    (e : RawEntry) : acc.2 ⊆ (stepEntry geocode now acc e).2 := by
  rcases stepEntry_cases geocode now acc e with ⟨heq, _⟩ | ⟨_, _, r, _, _, _, _, heq⟩
  · rw [heq]
  · rw [heq]
    exact Finset.subset_insert _ _

/-- The seen set only grows across a run over a list of entries. -/
lemma foldl_seen_mono (geocode : String → Option (ℚ × ℚ))
    (now : ℕ → String) :
    ∀ (es : List RawEntry) (acc : List AlertRecord × Finset String),
      acc.2 ⊆ (es.foldl (stepEntry geocode now) acc).2
  | [], _ => Finset.Subset.refl _
  | e :: es, acc => by
    rw [List.foldl_cons]
    exact (stepEntry_seen_mono geocode now acc e).trans
      (foldl_seen_mono geocode now es _)

/-- After processing `es`, the fingerprint of every matching entry of `es`
is in the seen set. -/
lemma foldl_matched_mem (geocode : String → Option (ℚ × ℚ))
    (now : ℕ → String) :
    ∀ (es : List RawEntry) (acc : List AlertRecord × Finset String)
      (e : RawEntry), e ∈ es →
      matches_keywords (entryContent e) KEYWORDS = true →
      entryHash e ∈ (es.foldl (stepEntry geocode now) acc).2
  | f :: fs, acc, e, hmem, hm => by
    rw [List.foldl_cons]
    rcases List.mem_cons.mp hmem with rfl | h
    · refine foldl_seen_mono geocode now fs _ ?_
      rcases stepEntry_cases geocode now acc e with ⟨heq, himp⟩ |
        ⟨_, _, r, hrh, _, _, _, heq⟩
      · rw [heq]; exact himp hm
      · rw [heq]; exact Finset.mem_insert_self _ _
    · exact foldl_matched_mem geocode now fs _ e h hm

/-- If every matching entry's fingerprint is already seen, a run over the
entries changes nothing. -/
lemma foldl_no_new (geocode : String → Option (ℚ × ℚ)) (now : ℕ → String) :
    ∀ (es : List RawEntry) (acc : List AlertRecord × Finset String),
      (∀ e ∈ es, matches_keywords (entryContent e) KEYWORDS = true →
        entryHash e ∈ acc.2) →
      es.foldl (stepEntry geocode now) acc = acc
  | [], _, _ => rfl
  | f :: fs, acc, hall => by
    have hstep : stepEntry geocode now acc f = acc := by
      rcases stepEntry_cases geocode now acc f with ⟨heq, _⟩ |
        ⟨hm, hnot, r, _, _, _, _, _⟩
      · exact heq
      · exact absurd (hall f (List.mem_cons_self f fs) hm) hnot
    rw [List.foldl_cons, hstep]
    exact foldl_no_new geocode now fs acc
      (fun e he => hall e (List.mem_cons_of_mem f he))

/-- The nested source-then-entry loop of `poll_once` equals one pass over
the flattened entry list (source order first, entry order within source). -/
lemma foldl_nested_eq_flatten (geocode : String → Option (ℚ × ℚ))
    (now : ℕ → String) :
    ∀ (feeds : List (List RawEntry)) (acc : List AlertRecord × Finset String),
      feeds.foldl (fun a fe => fe.foldl (stepEntry geocode now) a) acc =
        (feeds.flatten).foldl (stepEntry geocode now) acc
  | [], _ => rfl
  | fe :: fs, acc => by
    rw [List.foldl_cons, List.flatten_cons, List.foldl_append]
    exact foldl_nested_eq_flatten geocode now fs _

/-- `poll_once` written as a single fold over the flattened entries. -/
lemma poll_once_eq (geocode : String → Option (ℚ × ℚ)) (now : ℕ → String)
    (dupFile : Option (List String)) (feeds : List (List RawEntry)) :
    poll_once geocode now dupFile feeds =
      ((((feeds.flatten).foldl (stepEntry geocode now)
          ([], load_seen_hashes dupFile))).1,
       save_seen_hashes (((feeds.flatten).foldl (stepEntry geocode now)
          ([], load_seen_hashes dupFile))).2) := by
  simp only [poll_once]
  rw [foldl_nested_eq_flatten]

/-- Structure of one run over a list of entries starting from batch `b` and
seen set `s`: exactly the new records `n` are appended; the final seen set
is `s` plus the new fingerprints; the new fingerprints are pairwise distinct
and were not previously seen; each new record carries the fields and
fingerprint of one processed entry; every matching entry's fingerprint ends
up seen; and the new records preserve entry order. -/
lemma foldl_spec (geocode : String → Option (ℚ × ℚ)) (now : ℕ → String)
    (es : List RawEntry) :
    ∀ (b : List AlertRecord) (s : Finset String),
      ∃ n : List AlertRecord,
        es.foldl (stepEntry geocode now) (b, s) =
          (b ++ n, s ∪ (n.map AlertRecord.id_hash).toFinset) ∧
        (n.map AlertRecord.id_hash).Nodup ∧
        (∀ r ∈ n, r.id_hash ∉ s) ∧
        (∀ r ∈ n, ∃ e ∈ es, r.id_hash = entryHash e ∧ r.title = e.title ∧
            r.summary = e.summary ∧ r.link = e.link) ∧
        (∀ e ∈ es, matches_keywords (entryContent e) KEYWORDS = true →
            entryHash e ∈ s ∨ entryHash e ∈ n.map AlertRecord.id_hash) ∧
        (n.map (fun r => (r.title, r.summary, r.link))).Sublist
          (es.map (fun e => (e.title, e.summary, e.link))) := by
  induction es with
  | nil =>
    intro b s
    exact ⟨[], by simp, by simp, by simp, by simp, by simp, by simp⟩
  | cons e es ih =>
    intro b s
    rcases stepEntry_cases geocode now (b, s) e with ⟨heq, himp⟩ |
      ⟨hm, hnot, r, hrh, hrt, hrs, hrl, heq⟩
    · obtain ⟨n, h1, h2, h3, h4, h5, h6⟩ := ih b s
      refine ⟨n, ?_, h2, h3, ?_, ?_, ?_⟩
      · rw [List.foldl_cons, heq]
        exact h1
      · intro r hr
        obtain ⟨e', he', hp⟩ := h4 r hr
        exact ⟨e', List.mem_cons_of_mem e he', hp⟩
      · intro e' he' hm'
        rcases List.mem_cons.mp he' with rfl | he''
        · exact Or.inl (himp hm')
        · exact h5 e' he'' hm'
      · exact List.Sublist.cons _ h6
    · obtain ⟨n, h1, h2, h3, h4, h5, h6⟩ := ih (b ++ [r]) (insert (entryHash e) s)
      refine ⟨r :: n, ?_, ?_, ?_, ?_, ?_, ?_⟩
      · rw [List.foldl_cons, heq]
        dsimp only
        rw [h1]
        refine Prod.ext ?_ ?_
        · simp
        · simp only [List.map_cons, List.toFinset_cons, ← hrh]
          rw [Finset.insert_union, Finset.union_insert]
      · rw [List.map_cons, List.nodup_cons]
        refine ⟨?_, h2⟩
        intro hmem
        obtain ⟨r', hr', heqh⟩ := List.mem_map.mp hmem
        apply h3 r' hr'
        rw [heqh, hrh]
        exact Finset.mem_insert_self _ _
      · intro r' hr'
        rcases List.mem_cons.mp hr' with rfl | hr''
        · rw [hrh]; exact hnot
        · exact fun c => h3 r' hr'' (Finset.mem_insert_of_mem c)
      · intro r' hr'
        rcases List.mem_cons.mp hr' with rfl | hr''
        · exact ⟨e, List.mem_cons_self e es, hrh, hrt, hrs, hrl⟩
        · obtain ⟨e', he', hp⟩ := h4 r' hr''
          exact ⟨e', List.mem_cons_of_mem e he', hp⟩
      · intro e' he' hm'
        rcases List.mem_cons.mp he' with rfl | he''
        · right
          rw [List.map_cons, hrh]
          exact List.mem_cons_self _ _
        · rcases h5 e' he'' hm' with hin | hin
          · rcases Finset.mem_insert.mp hin with heq' | hin'
            · right
              rw [List.map_cons, hrh, heq']
              exact List.mem_cons_self _ _
            · exact Or.inl hin'
          · right
            rw [List.map_cons]
            exact List.mem_cons_of_mem _ hin
      · rw [List.map_cons, List.map_cons, hrt, hrs, hrl]
        exact List.cons_sublist_cons.mpr h6

/-- The filter of the source (`k in t.lower()`) coincides with the filter by
the spec's case-insensitive occurrence, because every severity keyword is
already lowercase. -/
lemma severity_filter_ci (t : String) :
    SEVERITY_KEYWORDS.filter (fun k => substrB k (lowerStr t)) =
      SEVERITY_KEYWORDS.filter (fun k => ciSubstr k t) := by
  have hall : ∀ k ∈ SEVERITY_KEYWORDS, lowerStr k = k := by decide
  apply List.filter_congr
  intro k hk
  rw [ciSubstr, hall k hk]

/-- `severity_from_text` as the capped double of the distinct severity
keyword count. -/
lemma severity_eq (t : String) :
    severity_from_text t = min 10 (2 * distinctSevCount t) := by
  have hnd : (SEVERITY_KEYWORDS.filter (fun k => ciSubstr k t)).Nodup :=
    List.Nodup.filter _ (by decide)
  simp only [severity_from_text, distinctSevCount]
  rw [severity_filter_ci, hnd.dedup, Nat.min_comm]

/-- With a universally failing oracle the candidate loop always falls
through to the sentinel. -/
lemma geoLoop_none (geocode : String → Option (ℚ × ℚ))
    (hg : ∀ w, geocode w = none) :
    ∀ ws : List String, geoLoop geocode ws = (0, 0)
  | [] => rfl
  | w :: ws => by
    simp [geoLoop, hg w, geoLoop_none geocode hg ws]

/-! ### Claim theorems -/

/-- Claim C1, amended: `fingerprint(title, link)` is pure, deterministic
and fixed-length — it depends only on the UTF-8 concatenation
`title + link`, so equal `(title, link)` pairs (and, more generally, pairs
with equal concatenations) receive equal fingerprints, and every
fingerprint is exactly 64 characters long. The original claim's "any
differing byte of either field yields a different fingerprint" is refuted
by `hash_item_pair_collision`. -/
theorem hash_item_concat_det :
    (∀ t1 l1 t2 l2 : String, t1 ++ l1 = t2 ++ l2 →
      hash_item t1 l1 = hash_item t2 l2) ∧
    (∀ t l : String, (hash_item t l).length = 64) := by
  constructor
  · intro t1 l1 t2 l2 h
    unfold hash_item
    rw [h]
  · intro t l
    show ((String.mk (wordHex _ ++ wordHex _ ++ wordHex _ ++ wordHex _ ++
      wordHex _ ++ wordHex _ ++ wordHex _ ++ wordHex _)).data).length = 64
    simp [List.length_append, wordHex_length]

/-- Witness for `hash_item_concat_det` at concrete inputs. -/
theorem hash_item_concat_det_witness :
    hash_item "x" "y" = hash_item "xy" "" ∧ (hash_item "x" "y").length = 64 :=
  ⟨hash_item_concat_det.1 "x" "y" "xy" "" rfl, hash_item_concat_det.2 "x" "y"⟩

/-- Counterexample to claim C1 as stated: the pairs `("ab", "c")` and
`("a", "bc")` differ, yet their fingerprints are equal, because the hash is
taken over the bare concatenation `title + link`. -/
theorem hash_item_pair_collision :
    hash_item "ab" "c" = hash_item "a" "bc" ∧ ("ab", "c") ≠ ("a", "bc") := by
  constructor
  · have h : ("ab" : String) ++ "c" = "a" ++ "bc" := rfl
    exact congrArg (fun s => sha256hex (utf8Bytes s)) h
  · decide

/-- Claim C5: `score(text)` equals `min 10 (2 * number of distinct severity
keywords occurring case-insensitively in the text)`; it is bounded by 10,
monotone non-decreasing in the distinct-keyword count, equals 4 when exactly
"attack" and "war" occur, and equals 10 whenever 6 or more distinct severity
keywords occur. -/
theorem severity_spec :
    (∀ t, severity_from_text t = min 10 (2 * distinctSevCount t)) ∧
    (∀ t, severity_from_text t ≤ 10) ∧
    (∀ t1 t2, distinctSevCount t1 ≤ distinctSevCount t2 →
      severity_from_text t1 ≤ severity_from_text t2) ∧
    (∀ t, SEVERITY_KEYWORDS.filter (fun k => ciSubstr k t) =
        ["attack", "war"] → severity_from_text t = 4) ∧
    (∀ t, 6 ≤ distinctSevCount t → severity_from_text t = 10) := by
  refine ⟨fun t => severity_eq t, ?_, ?_, ?_, ?_⟩
  · intro t
    rw [severity_eq]
    exact min_le_left _ _
  · intro t1 t2 h
    rw [severity_eq, severity_eq]
    omega
  · intro t hf
    rw [severity_eq]
    unfold distinctSevCount
    rw [hf]
    rfl
  · intro t h6
    rw [severity_eq]
    omega

/-- Witness for `severity_spec`: "attack war" contains exactly the severity
keywords "attack" and "war" and scores 4; a text containing six distinct
severity keywords scores 10. -/
theorem severity_spec_witness :
    severity_from_text "attack war" = 4 ∧
    severity_from_text "attack explosion killed strike war invasion" = 10 :=
  ⟨severity_spec.2.2.2.1 "attack war" (by decide),
   severity_spec.2.2.2.2 "attack explosion killed strike war invasion"
     (by decide)⟩

/-- Claim C10: the severity score is always one of 0, 2, 4, 6, 8, 10 — in
particular it is always even. -/
theorem severity_even (t : String) :
    severity_from_text t % 2 = 0 ∧
    severity_from_text t ∈ ([0, 2, 4, 6, 8, 10] : List ℕ) := by
  have hc : (SEVERITY_KEYWORDS.filter
      (fun k => substrB k (lowerStr t))).length ≤ 8 :=
    le_trans (List.length_filter_le _ _) (by decide)
  simp only [severity_from_text]
  set c := (SEVERITY_KEYWORDS.filter (fun k => substrB k (lowerStr t))).length
  interval_cases c <;> exact ⟨by decide, by decide⟩

/-- Counterexample to claim C6 as stated: "A" occurs case-insensitively in
"a", yet `matches_keywords "a" ["A"]` is false — the code lowercases only
the text, never the vocabulary entry. -/
theorem matches_keywords_case_cex :
    matches_keywords "a" ["A"] = false ∧ ciSubstr "A" "a" = true := by
  decide

/-- Claim C6, amended: `matches(text, vocabulary)` is true iff some entry
occurs verbatim as a substring of the lowercased text; it is false for an
empty vocabulary, false for empty text provided no entry is the empty
string, and coincides with the case-insensitive reading whenever every
entry is lowercase (as all configured vocabularies are). -/
theorem matches_keywords_spec :
    (∀ text ks, matches_keywords text ks = true ↔
      ∃ k ∈ ks, substrB k (lowerStr text) = true) ∧
    (∀ text, matches_keywords text [] = false) ∧
    (∀ ks, (∀ k ∈ ks, k ≠ "") → matches_keywords "" ks = false) ∧
    (∀ text ks, (∀ k ∈ ks, lowerStr k = k) →
      (matches_keywords text ks = true ↔ ∃ k ∈ ks, ciSubstr k text = true)) := by
  have h1 : ∀ text ks, matches_keywords text ks = true ↔
      ∃ k ∈ ks, substrB k (lowerStr text) = true := by
    intro text ks
    simp only [matches_keywords]
    exact List.any_eq_true
  refine ⟨h1, ?_, ?_, ?_⟩
  · intro text
    rfl
  · intro ks hk
    cases hb : matches_keywords "" ks with
    | false => rfl
    | true =>
      obtain ⟨k, hkm, hsub⟩ := (h1 "" ks).mp hb
      exact absurd (substrB_empty_hay hsub) (hk k hkm)
  · intro text ks hlow
    rw [h1]
    constructor
    · rintro ⟨k, hkm, hs⟩
      refine ⟨k, hkm, ?_⟩
      rw [ciSubstr, hlow k hkm]
      exact hs
    · rintro ⟨k, hkm, hs⟩
      refine ⟨k, hkm, ?_⟩
      rw [ciSubstr, hlow k hkm] at hs
      exact hs

/-- Witness for `matches_keywords_spec` at concrete inputs: empty text with
a nonempty vocabulary is rejected; a matching text is accepted through the
case-insensitive reading. -/
theorem matches_keywords_spec_witness :
    matches_keywords "" ["war"] = false ∧
    matches_keywords "Attack in Bogota" KEYWORDS = true :=
  ⟨matches_keywords_spec.2.2.1 ["war"] (by decide),
   (matches_keywords_spec.2.2.2 "Attack in Bogota" KEYWORDS
     (by decide)).mpr ⟨"attack", by decide, by decide⟩⟩

/-- Claim C7: `extract_coords_from_text` scans the gazetteer keys in
definition order; whenever some key occurs in the lowercased text the first
such key's coordinate is returned and the geocoding oracle is never
consulted (the result is the same for every oracle); in particular a text
containing "colombia" but not "venezuela" (the only earlier key) resolves
to colombia's fixed coordinate. -/
theorem gazetteer_first_match :
    ∀ (text : String) (p : String × (ℚ × ℚ)),
      GEO_LOCATIONS.find? (fun q => substrB q.1 (lowerStr text)) = some p →
      (∀ geocode, extract_coords_from_text geocode text = p.2) ∧
      (substrB "colombia" (lowerStr text) = true →
        substrB "venezuela" (lowerStr text) = false →
        p.2 = ((-74.2973 : ℚ), (4.5709 : ℚ))) := by
  intro text p hfind
  constructor
  · intro geocode
    simp only [extract_coords_from_text]
    rw [hfind]
  · intro hc hv
    have hcol : GEO_LOCATIONS.find? (fun q => substrB q.1 (lowerStr text)) =
        some ("colombia", ((-74.2973 : ℚ), (4.5709 : ℚ))) := by
      simp only [GEO_LOCATIONS]
      rw [List.find?_cons_of_neg _ (by simp [hv])]
      exact List.find?_cons_of_pos _ hc
    rw [hcol] at hfind
    injection hfind with h
    rw [← h]

/-- Witness for `gazetteer_first_match`: a text containing "Colombia" and
an unresolvable capitalized token resolves to colombia's fixed coordinate
under an oracle that fails on every query. -/
theorem gazetteer_first_match_witness :
    GEO_LOCATIONS.find? (fun q => substrB q.1 (lowerStr "Colombia Zzqx")) =
      some ("colombia", ((-74.2973 : ℚ), (4.5709 : ℚ))) ∧
    extract_coords_from_text gNone "Colombia Zzqx" =
      ((-74.2973 : ℚ), (4.5709 : ℚ)) := by
  have h : GEO_LOCATIONS.find?
      (fun q => substrB q.1 (lowerStr "Colombia Zzqx")) =
      some ("colombia", ((-74.2973 : ℚ), (4.5709 : ℚ))) := by
    simp only [GEO_LOCATIONS]
    rw [List.find?_cons_of_neg _ (by decide)]
    exact List.find?_cons_of_pos _ (by decide)
  exact ⟨h, (gazetteer_first_match "Colombia Zzqx" _ h).1 gNone⟩

/-- Claim C8: resolution is total by construction (it always returns a pair
of rationals), and when no gazetteer key occurs in the lowercased text and
every external lookup fails, the sentinel `(0.0, 0.0)` is returned. -/
theorem resolve_sentinel :
    ∀ (text : String) (geocode : String → Option (ℚ × ℚ)),
      GEO_LOCATIONS.find? (fun q => substrB q.1 (lowerStr text)) = none →
      (∀ w, geocode w = none) →
      extract_coords_from_text geocode text = (0, 0) := by
  intro text geocode hfind hg
  simp only [extract_coords_from_text]
  rw [hfind]
  exact geoLoop_none geocode hg _

/-- Witness for `resolve_sentinel`: a text matching no gazetteer key, under
an oracle that fails on every query, resolves to the sentinel. -/
theorem resolve_sentinel_witness :
    GEO_LOCATIONS.find? (fun q => substrB q.1 (lowerStr "zzz")) = none ∧
    extract_coords_from_text gNone "zzz" = (0, 0) :=
  ⟨by decide, resolve_sentinel "zzz" gNone (by decide) (fun _ => rfl)⟩

/-- Claim C9: the batch returned by one run lists its records in
(source position, entry position) order — its field projection is a
sublist of the flattened entry sequence, for every configuration of
sources and contents. -/
theorem poll_once_order (geocode : String → Option (ℚ × ℚ))
    (now : ℕ → String) (dupFile : Option (List String))
    (feeds : List (List RawEntry)) :
    ((poll_once geocode now dupFile feeds).1.map
        (fun r => (r.title, r.summary, r.link))).Sublist
      ((feeds.flatten).map (fun e => (e.title, e.summary, e.link))) := by
  obtain ⟨n, h1, _, _, _, _, h6⟩ :=
    foldl_spec geocode now feeds.flatten [] (load_seen_hashes dupFile)
  have hbatch : (poll_once geocode now dupFile feeds).1 = n := by
    rw [poll_once_eq]
    dsimp only
    rw [h1]
    simp
  rw [hbatch]
  exact h6

/-- Counterexample to claim C3 as stated: the pair ("hello", "x") occurs in
two entries of one run, yet zero (not exactly one) records for it appear in
the batch, because its content matches no relevance keyword. -/
theorem poll_once_dedup_cex :
    (poll_once gNone now0 none [[eHello], [eHello]]).1 = [] := by decide

/-- Claim C3, amended: in one run all emitted fingerprints are pairwise
distinct, at most one record exists per (title, link) pair, and a
(title, link) pair occurring in the run yields exactly one record with its
fingerprint provided some entry carrying it has matching content and the
fingerprint is not in the loaded seen set. -/
theorem poll_once_dedup (geocode : String → Option (ℚ × ℚ))
    (now : ℕ → String) (dupFile : Option (List String))
    (feeds : List (List RawEntry)) :
    ((poll_once geocode now dupFile feeds).1.map AlertRecord.id_hash).Nodup ∧
    (∀ t l, ((poll_once geocode now dupFile feeds).1.countP
        (fun r => r.title == t && r.link == l)) ≤ 1) ∧
    (∀ e ∈ feeds.flatten,
      matches_keywords (entryContent e) KEYWORDS = true →
      entryHash e ∉ load_seen_hashes dupFile →
      ((poll_once geocode now dupFile feeds).1.map AlertRecord.id_hash).count
        (entryHash e) = 1) := by
  obtain ⟨n, h1, h2, h3, h4, h5, h6⟩ :=
    foldl_spec geocode now feeds.flatten [] (load_seen_hashes dupFile)
  have hbatch : (poll_once geocode now dupFile feeds).1 = n := by
    rw [poll_once_eq]
    dsimp only
    rw [h1]
    simp
  rw [hbatch]
  refine ⟨h2, ?_, ?_⟩
  · intro t l
    have key : ∀ r ∈ n, (r.title == t && r.link == l) = true →
        (AlertRecord.id_hash r == hash_item t l) = true := by
      intro r hr hb
      have hid : r.id_hash = hash_item r.title r.link := by
        obtain ⟨e', _, hh, ht, _, hl⟩ := h4 r hr
        rw [hh, ht, hl]
        rfl
      rw [Bool.and_eq_true, beq_iff_eq, beq_iff_eq] at hb
      rw [beq_iff_eq, hid, hb.1, hb.2]
    calc n.countP (fun r => r.title == t && r.link == l)
        ≤ n.countP (fun r => AlertRecord.id_hash r == hash_item t l) :=
          List.countP_mono_left key
      _ = (n.map AlertRecord.id_hash).count (hash_item t l) := by
          rw [List.count_eq_countP, List.countP_map]
          rfl
      _ ≤ 1 := List.nodup_iff_count_le_one.mp h2 _
  · intro e he hm hnot
    have hmem : entryHash e ∈ n.map AlertRecord.id_hash := by
      rcases h5 e he hm with hin | hin
      · exact absurd hin hnot
      · exact hin
    have hle := List.nodup_iff_count_le_one.mp h2 (entryHash e)
    have hge : 0 < (n.map AlertRecord.id_hash).count (entryHash e) :=
      List.count_pos_iff.mpr hmem
    omega

/-- Witness for `poll_once_dedup`: the matching entry `eWar` appears in two
different sources of one run and exactly one record with its fingerprint is
emitted. -/
theorem poll_once_dedup_witness :
    ((poll_once gNone now0 none [[eWar], [eWar]]).1.map
        AlertRecord.id_hash).count (entryHash eWar) = 1 :=
  (poll_once_dedup gNone now0 none [[eWar], [eWar]]).2.2 eWar (by decide)
    (by decide) (by simp [load_seen_hashes])

/-- Claim C4: running the pipeline twice against unchanged source contents,
with the dedup file written by the first run loaded by the second, yields
zero new records on the second run — for every pair of geocoding oracles
and clocks and every initial dedup file. -/
theorem poll_once_idempotent
    (geocode geocode' : String → Option (ℚ × ℚ)) (now now' : ℕ → String)
    (dupFile : Option (List String)) (feeds : List (List RawEntry)) :
    (poll_once geocode' now'
      (some (poll_once geocode now dupFile feeds).2) feeds).1 = [] := by
  have hkey : ∀ e ∈ feeds.flatten,
      matches_keywords (entryContent e) KEYWORDS = true →
      entryHash e ∈
        load_seen_hashes (some (save_seen_hashes
          (((feeds.flatten).foldl (stepEntry geocode now)
            ([], load_seen_hashes dupFile)).2))) := by
    intro e he hm
    have hmem := foldl_matched_mem geocode now feeds.flatten
      ([], load_seen_hashes dupFile) e he hm
    simp only [load_seen_hashes, save_seen_hashes, List.mem_toFinset]
    exact List.mem_map.mpr ⟨entryHash e, (Finset.mem_sort _).mpr hmem,
      pyStrip_hash_item e.title e.link⟩
  rw [poll_once_eq geocode now dupFile feeds]
  dsimp only
  rw [poll_once_eq geocode' now']
  dsimp only
  rw [foldl_no_new geocode' now' feeds.flatten _ hkey]

/-- Counterexample to claim C2 as stated: after a run producing zero new
records, the feature-collection file keeps its previous (non-empty)
contents rather than containing an empty collection — neither writer runs
on an empty batch. The row-table half of the claim does hold. -/
theorem run_alert_process_empty_batch_cex :
    (run_alert_process (poll_once gNone now0 none []).1 demoFS).geojson =
      some [toFeature demoRecord] ∧
    (run_alert_process (poll_once gNone now0 none []).1 demoFS).geojson ≠
      some ([] : List Feature) ∧
    (run_alert_process (poll_once gNone now0 none []).1 demoFS).csv =
      demoFS.csv := by
  refine ⟨rfl, ?_, rfl⟩
  intro h
  exact absurd (Option.some.inj h) (by simp)

/-- Claim C2, amended: after a pipeline run that produces zero new records,
both output files are unchanged: the writers run only under `if alerts:`,
so the feature-collection file keeps its previous contents and the row
table is untouched. -/
theorem run_alert_process_empty_batch
    (geocode : String → Option (ℚ × ℚ)) (now : ℕ → String)
    (dupFile : Option (List String)) (feeds : List (List RawEntry))
    (fs : FileState) (h : (poll_once geocode now dupFile feeds).1 = []) :
    run_alert_process (poll_once geocode now dupFile feeds).1 fs = fs := by
  rw [h]
  rfl

/-- Witness for `run_alert_process_empty_batch`: a run over no sources
produces zero records and leaves the previously written files untouched. -/
theorem run_alert_process_empty_batch_witness :
    run_alert_process (poll_once gNone now0 none []).1 demoFS = demoFS :=
  run_alert_process_empty_batch gNone now0 none [] demoFS rfl
